import Mathlib

/-! Verification development for the SDRIG host-side control library.

The development models, as a shallow embedding, the parts of the library
the properties below are about: the J1939 identifier algebra
(`sdrig/protocol/can_protocol.py`), the ACF-CAN Brief framer and parser
(`sdrig/transport/avtp_acf.py`), the UIO and ELoad device shadow-state
engines (`sdrig/devices/device_uio.py`, `sdrig/devices/device_eload.py`),
the periodic task scheduler (`sdrig/utils/task_monitor.py`) and the SDK
facade (`sdrig/sdk.py`).  Python integers are modelled as `Nat`, Python
floats that only get stored and compared (never rounded) as `Rat`, byte
strings as `List Nat` with entries below 256, and functions that can
raise as functions returning an explicit error flag together with the
state at the raise point. -/

namespace CanProtocol

/-- `is_j1939` from `sdrig/protocol/can_protocol.py`: extended-frame check. -/
def is_j1939 (can_id : ℕ) : Bool := decide (can_id > 0x7FF)

/-- `is_pdu1_format`: PDU Format byte (bits 16..23) below `0xF0`. -/
def is_pdu1_format (can_id : ℕ) : Bool :=
  decide ((can_id >>> 16) &&& 0xFF < 0xF0)

/-- `extract_pgn`: for PDU1 replace the DA byte with `0xFE`, for PDU2 keep
the group extension. -/
def extract_pgn (can_id : ℕ) : ℕ :=
  if is_pdu1_format can_id then ((can_id >>> 8) &&& 0x3FF00) ||| 0x000FE
  else (can_id >>> 8) &&& 0x3FFFF

/-- `normalize_can_id_for_dbc`: standard ids pass through; extended ids get
wildcarded DA/SA bytes and the extended-frame marker bit. -/
def normalize_can_id_for_dbc (can_id : ℕ) : ℕ :=
  if ¬ is_j1939 can_id then can_id
  else
    let normalized :=
      if is_pdu1_format can_id then (can_id &&& 0xFFFF0000) ||| 0xFEFE
      else (can_id &&& 0xFFFFFF00) ||| 0xFE
    normalized ||| 0x80000000

/-- `extract_source_address`: bottom byte. -/
def extract_source_address (can_id : ℕ) : ℕ := can_id &&& 0xFF

/-- `extract_priority`: bits 26..28. -/
def extract_priority (can_id : ℕ) : ℕ := (can_id >>> 26) &&& 0x07

/-- `build_j1939_id`: compose the 29-bit id; PDU1 substitutes the wildcard
low byte of the PGN with the destination address, PDU2 keeps the group
extension. -/
def build_j1939_id (pgn source_addr destination_addr priority : ℕ) : ℕ :=
  let pf := (pgn >>> 8) &&& 0xFF
  if pf < 0xF0 then
    ((priority &&& 0x07) <<< 26) ||| ((pgn &&& 0x3FF00) <<< 8) |||
      ((destination_addr &&& 0xFF) <<< 8) ||| (source_addr &&& 0xFF)
  else
    ((priority &&& 0x07) <<< 26) ||| ((pgn &&& 0x3FFFF) <<< 8) ||| (source_addr &&& 0xFF)

/-- The PGN catalog of `sdrig/types/enums.py` (distinct raw values). -/
def PGN_catalog : List ℕ :=
  [0x000FE, 0x001FE, 0x008FE, 0x002FE, 0x010FE,
   0x121FE, 0x120FE, 0x114FE, 0x116FE, 0x117FE,
   0x128FE, 0x126FE, 0x127FE, 0x122FE, 0x112FE, 0x113FE,
   0x123FE, 0x124FE, 0x12AFE, 0x129FE, 0x12BFE, 0x12EFE, 0x12CFE, 0x12DFE,
   0x021FE, 0x020FE, 0x022FE, 0x028FE, 0x029FE,
   0x040FE, 0x042FE, 0x043FE]
end CanProtocol


namespace AvtpAcf

/-- Big-endian 2-byte packing (`struct.pack "!H"`). -/
def pack_u16_be (v : ℕ) : List ℕ := [v / 256 % 256, v % 256]

/-- Big-endian 4-byte packing (`struct.pack "!I"`). -/
def pack_u32_be (v : ℕ) : List ℕ :=
  [v / 16777216 % 256, v / 65536 % 256, v / 256 % 256, v % 256]

/-- The flags byte assembled by `AvtpAcfClient.build_acf_can_brief`. -/
def acf_flags (eff fdf brs ts_valid : Bool) : ℕ :=
  0x00 ||| (if ts_valid then 0x20 else 0) ||| (if eff then 0x08 else 0) |||
    (if brs then 0x04 else 0) ||| (if fdf then 0x02 else 0)

/-- Quadlet zero padding (`while len(b) % 4: b += b"\x00"`). -/
def pad4 (b : List ℕ) : List ℕ :=
  b ++ List.replicate ((4 - b.length % 4) % 4) 0

/-- `AvtpAcfClient.build_acf_can_brief` from `sdrig/transport/avtp_acf.py`:
ACF header (msg type `0b010`, length in quadlets), flags, bus id, 32-bit
CAN id, then the data truncated to 64 bytes and zero padded to a quadlet
boundary. -/
def build_acf_can_brief (bus_id msg_id : ℕ) (data : List ℕ)
    (eff fdf brs ts_valid : Bool) : List ℕ :=
  let msg_type := 0b010
  let flags := acf_flags eff fdf brs ts_valid
  let data := data.take 64
  let header_bytes := 2 + 1 + 1 + 4
  let quadlets := (header_bytes + data.length + 3) / 4
  let header := ((msg_type &&& 0x7F) <<< 9) ||| (quadlets &&& 0x1FF)
  pad4 (pack_u16_be header ++ [flags, bus_id &&& 0x1F] ++ pack_u32_be msg_id ++ data)

/-- The block header length field as read by `iter_acf_blocks`
(`header & 0x1FF` on the big-endian 16-bit ACF header). -/
def acf_length_quadlets (block : List ℕ) : ℕ :=
  (block.getD 0 0 * 256 + block.getD 1 0) &&& 0x1FF

/-- `parse_can_brief`: yields `(bus_id, can_id, flags, data, msg_type)`,
or an error for a block shorter than 8 bytes. -/
def parse_can_brief (block : List ℕ) :
    Option (ℕ × ℕ × ℕ × List ℕ × ℕ) :=
  if block.length < 8 then none
  else
    let header := block.getD 0 0 * 256 + block.getD 1 0
    let msg_type := (header >>> 9) &&& 0x7F
    let flags := block.getD 2 0
    let bus_id := block.getD 3 0 &&& 0x1F
    let can_id := ((block.getD 4 0 &&& 0x1F) <<< 24) ||| (block.getD 5 0 <<< 16) |||
      (block.getD 6 0 <<< 8) ||| block.getD 7 0
    some (bus_id, can_id, flags, block.drop 8, msg_type)

end AvtpAcf


namespace Enums

/-- UIO pin features (`sdrig/types/enums.py`, class `Feature`). -/
inductive Feature
  | UNKNOWN
  | GET_VOLTAGE
  | SET_VOLTAGE
  | GET_CURRENT
  | SET_CURRENT
  | GET_PWM
  | SET_PWM
deriving DecidableEq

/-- Feature states (`sdrig/types/enums.py`, class `FeatureState`). -/
inductive FeatureState
  | UNKNOWN
  | IDLE
  | DISABLED
  | OPERATE
  | WARNING
  | ERROR
deriving DecidableEq

end Enums

namespace Uio

open Enums

/-- Outbound messages the UIO engine can emit
(`DeviceUIO._send_*_req` in `sdrig/devices/device_uio.py`); each message
carries the full eight-element shadow snapshot it encodes. -/
inductive UioMsg
  | op_mode_req
  | voltage_out_req (vals : List ℚ)
  | current_out_req (vals : List ℚ)
  | pwm_out_req (vals : List (ℚ × ℚ × ℚ))
  | switch_output_req (icu pwm vlt_o cur_o cur_i : List Bool)
  | module_info_req
deriving DecidableEq

/-- Shadow state of `DeviceUIO`: the fields touched by the setters and
senders (per-pin op modes, output values, last-sent mirrors, switch
vectors, and the pin-local `state.voltage.set_value`). -/
structure UioState where
  op_modes : Fin 8 → Feature → Option FeatureState
  voltages_out : List ℚ
  currents_out : List ℚ
  pwm_out : List (ℚ × ℚ × ℚ)
  voltages_out_last : List ℚ
  currents_out_last : List ℚ
  pwm_out_last : List (ℚ × ℚ × ℚ)
  switch_icu : List Bool
  switch_pwm : List Bool
  switch_vlt_o : List Bool
  switch_cur_o : List Bool
  switch_cur_i : List Bool
  pin_voltage_set : List ℚ

/-- Freshly constructed `DeviceUIO` shadow (`DeviceUIO.__init__`). -/
def uio_init : UioState where
  op_modes := fun _ _ => none
  voltages_out := List.replicate 8 0
  currents_out := List.replicate 8 0
  pwm_out := List.replicate 8 (0, 0, 5)
  voltages_out_last := List.replicate 8 0
  currents_out_last := List.replicate 8 0
  pwm_out_last := List.replicate 8 (0, 0, 5)
  switch_icu := List.replicate 8 false
  switch_pwm := List.replicate 8 false
  switch_vlt_o := List.replicate 8 false
  switch_cur_o := List.replicate 8 false
  switch_cur_i := List.replicate 8 false
  pin_voltage_set := List.replicate 8 0

/-- `DeviceUIO._set_op_mode`: point update of the op-mode dictionary. -/
def set_op_mode (s : UioState) (p : Fin 8) (f : Feature) (st : FeatureState) : UioState :=
  { s with op_modes := fun q g => if q = p ∧ g = f then some st else s.op_modes q g }

/-- `Pin.disable_feature`: set the feature's op mode to `DISABLED` and
open the corresponding switch, if the feature maps to one. -/
def disable_feature (s : UioState) (p : Fin 8) (f : Feature) : UioState :=
  let s := set_op_mode s p f .DISABLED
  match f with
  | .SET_VOLTAGE => { s with switch_vlt_o := s.switch_vlt_o.set p.val false }
  | .SET_CURRENT => { s with switch_cur_o := s.switch_cur_o.set p.val false }
  | .SET_PWM => { s with switch_pwm := s.switch_pwm.set p.val false }
  | .GET_CURRENT => { s with switch_cur_i := s.switch_cur_i.set p.val false }
  | .GET_PWM => { s with switch_icu := s.switch_icu.set p.val false }
  | _ => s

/-- `Pin.disable_all_features`: disable the six main features in order. -/
def disable_all_features (s : UioState) (p : Fin 8) : UioState :=
  [Feature.GET_VOLTAGE, Feature.SET_VOLTAGE, Feature.GET_CURRENT,
   Feature.SET_CURRENT, Feature.GET_PWM, Feature.SET_PWM].foldl
    (fun s f => disable_feature s p f) s

/-- `DeviceUIO._send_op_mode_req`: one message describing all eight pins;
no last-sent mirror is kept for op modes.  `ok` is the success of the
encode-and-send call (`send_can_message` may raise). -/
def send_op_mode_req (s : UioState) (ok : Bool) : UioState × List UioMsg :=
  (s, if ok then [UioMsg.op_mode_req] else [])

/-- `DeviceUIO._send_voltage_out_req`: send the eight voltage values and,
only on success, update the last-sent mirror. -/
def send_voltage_out_req (s : UioState) (ok : Bool) : UioState × List UioMsg :=
  if ok then
    ({ s with voltages_out_last := s.voltages_out },
     [UioMsg.voltage_out_req s.voltages_out])
  else (s, [])

/-- `DeviceUIO._send_current_out_req`. -/
def send_current_out_req (s : UioState) (ok : Bool) : UioState × List UioMsg :=
  if ok then
    ({ s with currents_out_last := s.currents_out },
     [UioMsg.current_out_req s.currents_out])
  else (s, [])

/-- `DeviceUIO._send_pwm_out_req`. -/
def send_pwm_out_req (s : UioState) (ok : Bool) : UioState × List UioMsg :=
  if ok then
    ({ s with pwm_out_last := s.pwm_out }, [UioMsg.pwm_out_req s.pwm_out])
  else (s, [])

/-- `DeviceUIO._send_switch_output_req`: one message with the five switch
vectors for all eight pins; no mirror. -/
def send_switch_output_req (s : UioState) (ok : Bool) : UioState × List UioMsg :=
  (s, if ok then
      [UioMsg.switch_output_req s.switch_icu s.switch_pwm s.switch_vlt_o
        s.switch_cur_o s.switch_cur_i]
    else [])

/-- `DeviceUIO._send_all_parameters`: the combined periodic snapshot —
op modes, voltage, current, PWM, switch, in this order. -/
def send_all_parameters (s : UioState) (ok1 ok2 ok3 ok4 ok5 : Bool) :
    UioState × List UioMsg :=
  let r1 := send_op_mode_req s ok1
  let r2 := send_voltage_out_req r1.1 ok2
  let r3 := send_current_out_req r2.1 ok3
  let r4 := send_pwm_out_req r3.1 ok4
  let r5 := send_switch_output_req r4.1 ok5
  (r5.1, r1.2 ++ r2.2 ++ r3.2 ++ r4.2 ++ r5.2)

/-- Result of a setter call: whether it raised, the state at return (or at
the raise point), and the immediately sent messages. -/
structure StepResult where
  raised : Bool
  state : UioState
  sent : List UioMsg

/-- `Pin.set_voltage` (`sdrig/devices/device_uio.py`): range check first
(raise before any shadow mutation), then disable all features, set the
`SET_VOLTAGE`/`GET_VOLTAGE` op modes to `OPERATE`, close the `vlt_o`
switch, store the voltage, and send `VOLTAGE_OUT_VAL_REQ` immediately
iff the shadow differs from the last-sent mirror. -/
def set_voltage (s : UioState) (p : Fin 8) (voltage : ℚ) (ok : Bool) : StepResult :=
  if ¬ (0 ≤ voltage ∧ voltage ≤ 24) then ⟨true, s, []⟩
  else
    let s := disable_all_features s p
    let s := set_op_mode s p .SET_VOLTAGE .OPERATE
    let s := set_op_mode s p .GET_VOLTAGE .OPERATE
    let s := { s with switch_vlt_o := s.switch_vlt_o.set p.val true }
    let s := { s with voltages_out := s.voltages_out.set p.val voltage,
                      pin_voltage_set := s.pin_voltage_set.set p.val voltage }
    if s.voltages_out ≠ s.voltages_out_last then
      let r := send_voltage_out_req s ok
      ⟨false, r.1, r.2⟩
    else ⟨false, s, []⟩

/-- The shadow state after the mutation phase of `Pin.set_voltage`
(everything before the change-detection send). -/
def set_voltage_mid (s : UioState) (p : Fin 8) (v : ℚ) : UioState :=
  let s1 := disable_all_features s p
  let s2 := set_op_mode s1 p .SET_VOLTAGE .OPERATE
  let s3 := set_op_mode s2 p .GET_VOLTAGE .OPERATE
  let s4 := { s3 with switch_vlt_o := s3.switch_vlt_o.set p.val true }
  { s4 with voltages_out := s4.voltages_out.set p.val v,
            pin_voltage_set := s4.pin_voltage_set.set p.val v }

/-- `TaskMonitor.add_task_sec`: the registered period in microseconds is
`int(period_sec * 1e6)`. -/
def add_task_sec_us (period_sec : ℚ) : ℕ := (⌊period_sec * 1000000⌋).toNat

/-- `DeviceUIO._setup_periodic_tasks`: the periodic task table registered
on `start()` — `module_info` every 4 seconds and the combined
`all_parameters` snapshot every 0.1 seconds. -/
def setup_periodic_tasks_uio : List (String × ℕ) :=
  [("module_info", add_task_sec_us 4.0), ("all_parameters", add_task_sec_us 0.1)]

end Uio


namespace ELoad

open Enums

/-- Outbound messages the ELoad engine can emit
(`DeviceELoad._send_*_req` in `sdrig/devices/device_eload.py`). -/
inductive ELoadMsg
  | op_mode_req
  | voltage_out_req (vals : List ℚ)
  | current_out_req (vals : List ℚ)
  | switch_relay_req (douts : List Bool)
  | module_info_req
deriving DecidableEq

/-- Shadow state of `DeviceELoad`: per-channel op modes, output values,
last-sent mirrors, the four digital-output relays, and the channel-local
`ELoadChannelState` fields the setters touch. -/
structure ELoadState where
  op_modes : Fin 8 → Feature → Option FeatureState
  voltages_out : List ℚ
  currents_out : List ℚ
  voltages_out_last : List ℚ
  currents_out_last : List ℚ
  relay_states : List Bool
  chan_voltage : List ℚ
  chan_current_set : List ℚ
  chan_enabled : List Bool

/-- Freshly constructed `DeviceELoad` shadow (`DeviceELoad.__init__`). -/
def eload_init : ELoadState where
  op_modes := fun _ _ => none
  voltages_out := List.replicate 8 0
  currents_out := List.replicate 8 0
  voltages_out_last := List.replicate 8 0
  currents_out_last := List.replicate 8 0
  relay_states := List.replicate 4 false
  chan_voltage := List.replicate 8 0
  chan_current_set := List.replicate 8 0
  chan_enabled := List.replicate 8 false

/-- `DeviceELoad._set_op_mode`. -/
def set_op_mode (s : ELoadState) (c : Fin 8) (f : Feature) (st : FeatureState) : ELoadState :=
  { s with op_modes := fun q g => if q = c ∧ g = f then some st else s.op_modes q g }

/-- `DeviceELoad._send_voltage_out_req`: mirror updated only on success. -/
def send_voltage_out_req (s : ELoadState) (ok : Bool) : ELoadState × List ELoadMsg :=
  if ok then
    ({ s with voltages_out_last := s.voltages_out },
     [ELoadMsg.voltage_out_req s.voltages_out])
  else (s, [])

/-- `DeviceELoad._send_current_out_req`: mirror updated only on success. -/
def send_current_out_req (s : ELoadState) (ok : Bool) : ELoadState × List ELoadMsg :=
  if ok then
    ({ s with currents_out_last := s.currents_out },
     [ELoadMsg.current_out_req s.currents_out])
  else (s, [])

/-- `DeviceELoad._send_switch_relay_req`. -/
def send_switch_relay_req (s : ELoadState) (ok : Bool) : ELoadState × List ELoadMsg :=
  (s, if ok then [ELoadMsg.switch_relay_req s.relay_states] else [])

/-- `DeviceELoad._send_all_parameters`: op modes, voltage, current. -/
def send_all_parameters_eload (s : ELoadState) (ok1 ok2 ok3 : Bool) :
    ELoadState × List ELoadMsg :=
  let r1 := (s, if ok1 then [ELoadMsg.op_mode_req] else [])
  let r2 := send_voltage_out_req r1.1 ok2
  let r3 := send_current_out_req r2.1 ok3
  (r3.1, r1.2 ++ r2.2 ++ r3.2)

/-- Result of an ELoad setter call. -/
structure EStepResult where
  raised : Bool
  state : ELoadState
  sent : List ELoadMsg

/-- `ELoadChannel.set_current`: range check first, then enable
`SET_CURRENT`/`GET_CURRENT`, disable `SET_VOLTAGE`, enable `GET_VOLTAGE`,
store the current, zero the voltage shadow, and send immediately iff the
shadow differs from the last-sent mirror. -/
def set_current (s : ELoadState) (c : Fin 8) (current : ℚ) (ok : Bool) : EStepResult :=
  if ¬ (0 ≤ current ∧ current ≤ 10) then ⟨true, s, []⟩
  else
    let s := set_op_mode s c .SET_CURRENT .OPERATE
    let s := set_op_mode s c .GET_CURRENT .OPERATE
    let s := set_op_mode s c .SET_VOLTAGE .DISABLED
    let s := set_op_mode s c .GET_VOLTAGE .OPERATE
    let s := { s with currents_out := s.currents_out.set c.val current,
                      chan_current_set := s.chan_current_set.set c.val current,
                      chan_enabled := s.chan_enabled.set c.val (decide (0 < current)) }
    let s := { s with voltages_out := s.voltages_out.set c.val 0 }
    if s.currents_out ≠ s.currents_out_last then
      let r := send_current_out_req s ok
      ⟨false, r.1, r.2⟩
    else ⟨false, s, []⟩

/-- `ELoadChannel.set_voltage`: range check first, then enable
`SET_VOLTAGE`/`GET_VOLTAGE`, disable `SET_CURRENT`/`GET_CURRENT`, store
the voltage, zero the current shadow, and send immediately iff the shadow
differs from the last-sent mirror. -/
def set_voltage (s : ELoadState) (c : Fin 8) (voltage : ℚ) (ok : Bool) : EStepResult :=
  if ¬ (0 ≤ voltage ∧ voltage ≤ 24) then ⟨true, s, []⟩
  else
    let s := set_op_mode s c .SET_VOLTAGE .OPERATE
    let s := set_op_mode s c .GET_VOLTAGE .OPERATE
    let s := set_op_mode s c .SET_CURRENT .DISABLED
    let s := set_op_mode s c .GET_CURRENT .DISABLED
    let s := { s with voltages_out := s.voltages_out.set c.val voltage,
                      chan_voltage := s.chan_voltage.set c.val voltage }
    let s := { s with currents_out := s.currents_out.set c.val 0,
                      chan_current_set := s.chan_current_set.set c.val 0 }
    if s.voltages_out ≠ s.voltages_out_last then
      let r := send_voltage_out_req s ok
      ⟨false, r.1, r.2⟩
    else ⟨false, s, []⟩

/-- `DeviceELoad.set_relay`: update one relay and send the relay vector. -/
def set_relay (s : ELoadState) (r : Fin 4) (closed : Bool) (ok : Bool) : EStepResult :=
  let s := { s with relay_states := s.relay_states.set r.val closed }
  let rr := send_switch_relay_req s ok
  ⟨false, rr.1, rr.2⟩

/-- The user-facing operations that mutate an ELoad shadow. -/
inductive EOp
  | setCurrent (c : Fin 8) (i : ℚ) (ok : Bool)
  | setVoltage (c : Fin 8) (v : ℚ) (ok : Bool)
  | setRelay (r : Fin 4) (b : Bool) (ok : Bool)

/-- State reached after one operation. -/
def run_op (s : ELoadState) : EOp → ELoadState
  | .setCurrent c i ok => (set_current s c i ok).state
  | .setVoltage c v ok => (set_voltage s c v ok).state
  | .setRelay r b ok => (set_relay s r b ok).state

/-- State reached from the fresh shadow after a sequence of operations. -/
def run_ops (ops : List EOp) : ELoadState := ops.foldl run_op eload_init

/-- `DeviceELoad._setup_periodic_tasks`: `module_info` every 9 seconds and
the combined `all_parameters` snapshot every 0.1 seconds. -/
def setup_periodic_tasks_eload : List (String × ℕ) :=
  [("module_info", Uio.add_task_sec_us 9.0), ("all_parameters", Uio.add_task_sec_us 0.1)]


/-- The per-channel mode invariant: `SetVoltage` and `SetCurrent` are not
both in `Operate`. -/
def mutex (s : ELoadState) (c : Fin 8) : Prop :=
  ¬ (s.op_modes c .SET_VOLTAGE = some .OPERATE
     ∧ s.op_modes c .SET_CURRENT = some .OPERATE)

end ELoad

namespace TaskMonitor

/-- A periodic task record (`sdrig/utils/task_monitor.py`, class `Task`). -/
structure Task where
  name : String
  period_us : ℕ
  last_run : ℚ
  enabled : Bool
  error_count : ℕ
deriving DecidableEq

/-- `TaskMonitor.add_task`: a fresh task is enabled with a zero error
count and `last_run` stamped with the current time. -/
def add_task (name : String) (period_us : ℕ) (now : ℚ) : Task :=
  { name := name, period_us := period_us, last_run := now,
    enabled := true, error_count := 0 }

/-- What the scheduler loop does in one iteration, projected onto a single
registered task.  The boolean in each trace entry records whether the
registry lock is held at that point: the due-scan (which stamps
`last_run`) and the error bookkeeping run under the lock, the callback
itself runs with the lock released.  `cb_ok` is whether the callback
returns normally or raises. -/
inductive SchedAction
  | scan
  | invoke
  | bookkeep
deriving DecidableEq

/-- One iteration of `TaskMonitor._run` for one task. -/
def tick (t : Task) (now : ℚ) (cb_ok : Bool) : Task × List (Bool × SchedAction) :=
  if t.enabled ∧ (t.period_us : ℚ) / 1000000 ≤ now - t.last_run then
    let t1 := { t with last_run := now }
    if cb_ok then
      ({ t1 with error_count := 0 },
       [(true, SchedAction.scan), (false, SchedAction.invoke), (true, SchedAction.bookkeep)])
    else
      let t2 := { t1 with error_count := t1.error_count + 1 }
      let t3 := if 10 ≤ t2.error_count then { t2 with enabled := false } else t2
      (t3, [(true, SchedAction.scan), (false, SchedAction.invoke), (true, SchedAction.bookkeep)])
  else (t, [(true, SchedAction.scan)])

/-- Iterated ticks whose callback raises on every invocation. -/
def ticksFail (t : Task) (times : List ℚ) : Task :=
  times.foldl (fun s now => (tick s now false).1) t

/-- The task is due at each of the given tick times. -/
def allDueB : Task → List ℚ → Bool
  | _, [] => true
  | t, now :: rest =>
      decide ((t.period_us : ℚ) / 1000000 ≤ now - t.last_run)
        && allDueB (tick t now false).1 rest

end TaskMonitor

namespace Sdk

/-- A connected device object (`DeviceUIO` / `DeviceELoad` /
`DeviceIfMux`); `uid` models Python object identity. -/
inductive Device
  | uio (mac : String) (uid : ℕ)
  | eload (mac : String) (uid : ℕ)
  | ifmux (mac : String) (lin_enabled : Bool) (uid : ℕ)
deriving DecidableEq

/-- The facade state (`SDRIG.__init__`): one connected-device map keyed by
the upper-cased MAC string, shared by all three `connect_*` methods. -/
structure SdkState where
  connected_devices : List (String × Device)
  next_uid : ℕ
deriving DecidableEq

/-- `SDRIG.connect_uio`: return the existing entry for the upper-cased
MAC if present (no device-type check), else create a `DeviceUIO`. -/
def connect_uio (s : SdkState) (mac_address : String) : SdkState × Device :=
  let mac := mac_address.toUpper
  match s.connected_devices.lookup mac with
  | some d => (s, d)
  | none =>
      let d := Device.uio mac s.next_uid
      ({ connected_devices := s.connected_devices ++ [(mac, d)],
         next_uid := s.next_uid + 1 }, d)

/-- `SDRIG.connect_eload`: same map, same guard, no device-type check. -/
def connect_eload (s : SdkState) (mac_address : String) : SdkState × Device :=
  let mac := mac_address.toUpper
  match s.connected_devices.lookup mac with
  | some d => (s, d)
  | none =>
      let d := Device.eload mac s.next_uid
      ({ connected_devices := s.connected_devices ++ [(mac, d)],
         next_uid := s.next_uid + 1 }, d)

/-- `SDRIG.connect_ifmux`: same map, same guard, no device-type check. -/
def connect_ifmux (s : SdkState) (mac_address : String) (lin_enabled : Bool) :
    SdkState × Device :=
  let mac := mac_address.toUpper
  match s.connected_devices.lookup mac with
  | some d => (s, d)
  | none =>
      let d := Device.ifmux mac lin_enabled s.next_uid
      ({ connected_devices := s.connected_devices ++ [(mac, d)],
         next_uid := s.next_uid + 1 }, d)

end Sdk

-- ===== Theorems =====

namespace BitArith

/-- A disjoint bitwise or is an addition: if `a` is a multiple of `2 ^ k`
and `b` lies below `2 ^ k` then `a ||| b = a + b`. -/
theorem lor_disjoint (a b k : ℕ) (ha : a % 2 ^ k = 0) (hb : b < 2 ^ k) :
    a ||| b = a + b := by
  obtain ⟨c, rfl⟩ : ∃ c, a = 2 ^ k * c :=
    ⟨a / 2 ^ k, (Nat.mul_div_cancel' (Nat.dvd_of_mod_eq_zero ha)).symm⟩
  apply Nat.eq_of_testBit_eq
  intro i
  rw [Nat.testBit_lor, Nat.testBit_mul_pow_two_add c hb i]
  by_cases h : i < k
  · have h2 : (2 ^ k * c).testBit i = false := by
      rw [Nat.mul_comm, ← Nat.shiftLeft_eq, Nat.testBit_shiftLeft]
      simp [Nat.not_le.mpr h]
    simp [h, h2]
  · have hbk : b.testBit i = false :=
      Nat.testBit_lt_two_pow
        (lt_of_lt_of_le hb (Nat.pow_le_pow_right (by norm_num) (by omega)))
    have h2 : (2 ^ k * c).testBit i = c.testBit (i - k) := by
      rw [Nat.mul_comm, ← Nat.shiftLeft_eq, Nat.testBit_shiftLeft]
      simp [Nat.le_of_not_lt h]
    simp [h, h2, hbk]

/-- Masking with a shifted all-ones mask extracts a digit block:
`n &&& ((2 ^ a - 1) * 2 ^ b)` equals `n / 2 ^ b % 2 ^ a * 2 ^ b`. -/
theorem land_mask_shift (n a b : ℕ) :
    n &&& (2 ^ a - 1) * 2 ^ b = n / 2 ^ b % 2 ^ a * 2 ^ b := by
  apply Nat.eq_of_testBit_eq
  intro i
  rw [Nat.testBit_land]
  have hmask : ((2 ^ a - 1) * 2 ^ b).testBit i
      = (decide (i ≥ b) && decide (i - b < a)) := by
    rw [← Nat.shiftLeft_eq, Nat.testBit_shiftLeft, Nat.testBit_two_pow_sub_one]
  have hrhs : (n / 2 ^ b % 2 ^ a * 2 ^ b).testBit i
      = (decide (i ≥ b) && (decide (i - b < a) && (n / 2 ^ b).testBit (i - b))) := by
    rw [← Nat.shiftLeft_eq, Nat.testBit_shiftLeft, Nat.testBit_mod_two_pow]
  rw [hmask, hrhs]
  by_cases h : b ≤ i
  · have hdiv : (n / 2 ^ b).testBit (i - b) = n.testBit i := by
      rw [← Nat.shiftRight_eq_div_pow, Nat.testBit_shiftRight]
      congr 1
      omega
    rw [hdiv]
    by_cases h2 : i - b < a <;> simp [h, h2, Bool.and_comm]
  · simp [h]

/-- Setting a single high bit with `|||` is an addition on the cleared bit:
for `n < 2 ^ (k + 1)`, `n ||| 2 ^ k = n % 2 ^ k + 2 ^ k`. -/
theorem lor_two_pow (n k : ℕ) (h : n < 2 ^ (k + 1)) :
    n ||| 2 ^ k = n % 2 ^ k + 2 ^ k := by
  have hpos : 0 < 2 ^ k := by positivity
  have hr : n % 2 ^ k < 2 ^ k := Nat.mod_lt _ hpos
  have hd := Nat.div_add_mod n (2 ^ k)
  have hq2 : n / 2 ^ k < 2 := by
    apply Nat.div_lt_of_lt_mul
    calc n < 2 ^ (k + 1) := h
    _ = 2 ^ k * 2 := by ring
  have hq01 : n / 2 ^ k = 0 ∨ n / 2 ^ k = 1 :=
    Nat.le_one_iff_eq_zero_or_eq_one.mp (Nat.lt_succ_iff.mp hq2)
  rcases hq01 with hq | hq
  · have hn : n < 2 ^ k := by
      by_contra hcon
      have := Nat.div_eq_zero_iff hpos |>.mp hq
      omega
    have hmod : n % 2 ^ k = n := Nat.mod_eq_of_lt hn
    rw [Nat.lor_comm, lor_disjoint _ _ k (Nat.mod_self _) hn, hmod]
    omega
  · have hn : n = 2 ^ k + n % 2 ^ k := by
      rw [hq, Nat.mul_one] at hd
      exact hd.symm
    conv_lhs => rw [hn, ← lor_disjoint (2 ^ k) (n % 2 ^ k) k (Nat.mod_self _) hr]
    rw [Nat.lor_comm (2 ^ k) (n % 2 ^ k), Nat.lor_assoc, Nat.or_self, Nat.lor_comm,
      lor_disjoint (2 ^ k) (n % 2 ^ k) k (Nat.mod_self _) hr]
    omega

/-- `n &&& 0x07` is `n % 8`. -/
theorem land7 (n : ℕ) : n &&& 0x07 = n % 8 := by
  have h := Nat.and_pow_two_sub_one_eq_mod n 3
  norm_num at h
  exact h

/-- `n &&& 0x1F` is `n % 32`. -/
theorem land31 (n : ℕ) : n &&& 0x1F = n % 32 := by
  have h := Nat.and_pow_two_sub_one_eq_mod n 5
  norm_num at h
  exact h

/-- `n &&& 0x7F` is `n % 128`. -/
theorem land127 (n : ℕ) : n &&& 0x7F = n % 128 := by
  have h := Nat.and_pow_two_sub_one_eq_mod n 7
  norm_num at h
  exact h

/-- `n &&& 0xFF` is `n % 256`. -/
theorem land255 (n : ℕ) : n &&& 0xFF = n % 256 := by
  have h := Nat.and_pow_two_sub_one_eq_mod n 8
  norm_num at h
  exact h

/-- `n &&& 0x1FF` is `n % 512`. -/
theorem land511 (n : ℕ) : n &&& 0x1FF = n % 512 := by
  have h := Nat.and_pow_two_sub_one_eq_mod n 9
  norm_num at h
  exact h

/-- `n &&& 0x3FFFF` is `n % 0x40000`. -/
theorem land_0x3FFFF (n : ℕ) : n &&& 0x3FFFF = n % 262144 := by
  have h := Nat.and_pow_two_sub_one_eq_mod n 18
  norm_num at h
  exact h

/-- `n &&& 0x3FF00` extracts bits 8..17. -/
theorem land_0x3FF00 (n : ℕ) : n &&& 0x3FF00 = n / 256 % 1024 * 256 := by
  have h := land_mask_shift n 10 8
  norm_num at h
  exact h

/-- `n &&& 0xFFFF0000` extracts bits 16..31. -/
theorem land_0xFFFF0000 (n : ℕ) :
    n &&& 0xFFFF0000 = n / 65536 % 65536 * 65536 := by
  have h := land_mask_shift n 16 16
  norm_num at h
  exact h

/-- `n &&& 0xFFFFFF00` extracts bits 8..31. -/
theorem land_0xFFFFFF00 (n : ℕ) :
    n &&& 0xFFFFFF00 = n / 256 % 16777216 * 256 := by
  have h := land_mask_shift n 24 8
  norm_num at h
  exact h

/-- Shift right by a constant is division. -/
theorem shr_eq (m n : ℕ) : m >>> n = m / 2 ^ n := Nat.shiftRight_eq_div_pow m n

/-- Shift left by a constant is multiplication. -/
theorem shl_eq (m n : ℕ) : m <<< n = m * 2 ^ n := Nat.shiftLeft_eq m n

end BitArith

namespace CanProtocol

open BitArith

/-- Arithmetic form of `extract_priority`. -/
theorem extract_priority_eq (can_id : ℕ) :
    extract_priority can_id = can_id / 2 ^ 26 % 8 := by
  rw [extract_priority, shr_eq, land7]

/-- Arithmetic form of `extract_source_address`. -/
theorem extract_source_address_eq (can_id : ℕ) :
    extract_source_address can_id = can_id % 256 := by
  rw [extract_source_address, land255]

/-- Arithmetic form of `is_pdu1_format`. -/
theorem is_pdu1_format_eq (can_id : ℕ) :
    is_pdu1_format can_id = decide (can_id / 65536 % 256 < 240) := by
  rw [is_pdu1_format, shr_eq]
  norm_num [land255]

/-- Arithmetic form of `extract_pgn`. -/
theorem extract_pgn_eq (can_id : ℕ) :
    extract_pgn can_id =
      if can_id / 65536 % 256 < 240 then can_id / 65536 % 1024 * 256 + 0xFE
      else can_id / 256 % 262144 := by
  rw [extract_pgn, is_pdu1_format_eq]
  by_cases h : can_id / 65536 % 256 < 240
  · simp only [h, decide_True, if_true]
    rw [shr_eq, land_0x3FF00]
    norm_num
    rw [Nat.div_div_eq_div_mul]
    norm_num
    rw [lor_disjoint _ _ 8 (by omega) (by norm_num)]
  · simp only [h, decide_False, if_false]
    rw [shr_eq, land_0x3FFFF]
    norm_num

/-- Arithmetic form of `build_j1939_id` for in-range components. -/
theorem build_j1939_id_eq (pgn sa da prio : ℕ)
    (hp : pgn < 262144) (hsa : sa < 256) (hda : da < 256) (hprio : prio < 8) :
    build_j1939_id pgn sa da prio =
      if pgn / 256 % 256 < 240
      then prio * 67108864 + pgn / 256 * 65536 + da * 256 + sa
      else prio * 67108864 + pgn * 256 + sa := by
  unfold build_j1939_id
  have hpf : (pgn >>> 8) &&& 0xFF = pgn / 256 % 256 := by
    rw [shr_eq, land255]
    norm_num
  rw [hpf]
  by_cases h : pgn / 256 % 256 < 240
  · simp only [h, if_true]
    norm_num [land7, land255, land_0x3FF00, shl_eq]
    rw [Nat.mod_eq_of_lt hprio, Nat.mod_eq_of_lt hsa, Nat.mod_eq_of_lt hda]
    have h1 : pgn / 256 % 1024 = pgn / 256 := Nat.mod_eq_of_lt (by omega)
    rw [h1]
    rw [lor_disjoint (prio * 67108864) (pgn / 256 * 256 * 256) 26 (by omega) (by omega)]
    rw [lor_disjoint (prio * 67108864 + pgn / 256 * 256 * 256) (da * 256) 16 (by omega) (by omega)]
    rw [lor_disjoint (prio * 67108864 + pgn / 256 * 256 * 256 + da * 256) sa 8 (by omega) (by omega)]
    omega
  · simp only [h, if_false]
    norm_num [land7, land255, land_0x3FFFF, shl_eq]
    rw [Nat.mod_eq_of_lt hprio, Nat.mod_eq_of_lt hsa, Nat.mod_eq_of_lt hp]
    rw [lor_disjoint (prio * 67108864) (pgn * 256) 26 (by omega) (by omega)]
    rw [lor_disjoint (prio * 67108864 + pgn * 256) sa 8 (by omega) (by omega)]

/-- Round-trip of the identifier algebra for any PGN-shaped value
(wildcard low byte, at most 18 bits). -/
theorem build_extract_general (pgn sa da prio : ℕ)
    (hlo : pgn % 256 = 0xFE) (hhi : pgn < 262144)
    (hsa : sa < 256) (hda : da < 256) (hprio : prio < 8) :
    extract_priority (build_j1939_id pgn sa da prio) = prio
  ∧ extract_source_address (build_j1939_id pgn sa da prio) = sa
  ∧ extract_pgn (build_j1939_id pgn sa 0xFE 3) = pgn := by
  have hb := build_j1939_id_eq pgn sa da prio hhi hsa hda hprio
  have hb3 := build_j1939_id_eq pgn sa 0xFE 3 hhi hsa (by norm_num) (by norm_num)
  by_cases h : pgn / 256 % 256 < 240
  · rw [if_pos h] at hb hb3
    refine ⟨?_, ?_, ?_⟩
    · rw [hb, extract_priority_eq]
      omega
    · rw [hb, extract_source_address_eq]
      omega
    · rw [hb3, extract_pgn_eq]
      have hcond : (3 * 67108864 + pgn / 256 * 65536 + 254 * 256 + sa) / 65536 % 256 < 240 := by
        omega
      rw [if_pos hcond]
      omega
  · rw [if_neg h] at hb hb3
    refine ⟨?_, ?_, ?_⟩
    · rw [hb, extract_priority_eq]
      omega
    · rw [hb, extract_source_address_eq]
      omega
    · rw [hb3, extract_pgn_eq]
      have hcond : ¬ (3 * 67108864 + pgn * 256 + sa) / 65536 % 256 < 240 := by
        omega
      rw [if_neg hcond]
      omega

/-- Arithmetic form of `normalize_can_id_for_dbc` on extended PDU1 ids. -/
theorem normalize_pdu1_eq (x : ℕ) (hx : 0x7FF < x) (hp : x / 65536 % 256 < 240) :
    normalize_can_id_for_dbc x = x / 65536 % 32768 * 65536 + 0xFEFE + 2147483648 := by
  unfold normalize_can_id_for_dbc
  have hj : is_j1939 x = true := by
    simp only [is_j1939, decide_eq_true_eq]
    omega
  rw [if_neg (by simp [hj])]
  have hp1 : is_pdu1_format x = true := by
    rw [is_pdu1_format_eq]
    simpa using hp
  simp only [hp1, if_true]
  rw [land_0xFFFF0000]
  rw [lor_disjoint (x / 65536 % 65536 * 65536) 0xFEFE 16 (by omega) (by norm_num)]
  have hb : (0x80000000 : ℕ) = 2 ^ 31 := by norm_num
  rw [hb, lor_two_pow _ 31 (by norm_num; omega)]
  omega

/-- Arithmetic form of `normalize_can_id_for_dbc` on extended PDU2 ids. -/
theorem normalize_pdu2_eq (x : ℕ) (hx : 0x7FF < x) (hp : ¬ x / 65536 % 256 < 240) :
    normalize_can_id_for_dbc x = x / 256 % 8388608 * 256 + 0xFE + 2147483648 := by
  unfold normalize_can_id_for_dbc
  have hj : is_j1939 x = true := by
    simp only [is_j1939, decide_eq_true_eq]
    omega
  rw [if_neg (by simp [hj])]
  have hp1 : is_pdu1_format x = false := by
    rw [is_pdu1_format_eq]
    simpa using hp
  simp only [hp1, if_false, Bool.false_eq_true]
  rw [land_0xFFFFFF00]
  rw [lor_disjoint (x / 256 % 16777216 * 256) 0xFE 8 (by omega) (by norm_num)]
  have hb : (0x80000000 : ℕ) = 2 ^ 31 := by norm_num
  rw [hb, lor_two_pow _ 31 (by norm_num; omega)]
  omega

/-- `normalize_can_id_for_dbc` is the identity on standard 11-bit ids. -/
theorem normalize_std_eq (x : ℕ) (hx : x ≤ 0x7FF) :
    normalize_can_id_for_dbc x = x := by
  unfold normalize_can_id_for_dbc
  rw [if_pos]
  simp only [is_j1939, decide_eq_true_eq]
  omega

end CanProtocol

namespace CanProtocol

open BitArith

/-- C1: for every catalog PGN value `p` (low byte `0xFE`), every source
address `sa` and destination address `da` in 0..255 and every priority in
0..7, `extract_priority (build_j1939_id p sa da priority) = priority`,
`extract_source_address (build_j1939_id p sa da priority) = sa`, and
`extract_pgn (build_j1939_id p sa 0xFE 3) = p`, covering the PDU1 branch
(wildcard low byte replaced by `da`) and the PDU2 branch (group extension
preserved). -/
theorem claim_C1_build_extract_roundtrip (pgn sa da prio : ℕ)
    (hmem : pgn ∈ PGN_catalog) (hsa : sa < 256) (hda : da < 256) (hprio : prio < 8) :
    extract_priority (build_j1939_id pgn sa da prio) = prio
  ∧ extract_source_address (build_j1939_id pgn sa da prio) = sa
  ∧ extract_pgn (build_j1939_id pgn sa 0xFE 3) = pgn := by
  have hpgn : pgn % 256 = 0xFE ∧ pgn < 262144 := by
    fin_cases hmem <;> exact ⟨by norm_num, by norm_num⟩
  exact build_extract_general pgn sa da prio hpgn.1 hpgn.2 hsa hda hprio

/-- Witness for C1 at the catalog PGN `OP_MODE_REQ = 0x121FE`, `sa = 0x12`,
`da = 0x34`, `priority = 6`. -/
theorem claim_C1_build_extract_roundtrip_witness :
    extract_priority (build_j1939_id 0x121FE 0x12 0x34 6) = 6
  ∧ extract_source_address (build_j1939_id 0x121FE 0x12 0x34 6) = 0x12
  ∧ extract_pgn (build_j1939_id 0x121FE 0x12 0xFE 3) = 0x121FE :=
  claim_C1_build_extract_roundtrip 0x121FE 0x12 0x34 6
    (by decide) (by decide) (by decide) (by decide)

/-- C9: `normalize_can_id_for_dbc` is idempotent, acts as the identity on
standard 11-bit ids, and on extended ids it forces the SA byte (and for
PDU1 also the DA byte) to `0xFE`, sets the extended-frame marker bit
`0x80000000`, and preserves the remaining id bits. -/
theorem claim_C9_normalize_idempotent (x : ℕ) :
    normalize_can_id_for_dbc (normalize_can_id_for_dbc x) = normalize_can_id_for_dbc x
  ∧ (x ≤ 0x7FF → normalize_can_id_for_dbc x = x)
  ∧ (0x7FF < x →
      extract_source_address (normalize_can_id_for_dbc x) = 0xFE
    ∧ normalize_can_id_for_dbc x / 2147483648 % 2 = 1
    ∧ (is_pdu1_format x = true →
        normalize_can_id_for_dbc x / 256 % 256 = 0xFE
      ∧ normalize_can_id_for_dbc x / 65536 % 32768 = x / 65536 % 32768)
    ∧ (is_pdu1_format x = false →
        normalize_can_id_for_dbc x % 256 = 0xFE
      ∧ normalize_can_id_for_dbc x / 256 % 8388608 = x / 256 % 8388608)) := by
  by_cases hx : x ≤ 0x7FF
  · have h1 := normalize_std_eq x hx
    refine ⟨?_, fun _ => h1, fun hcon => absurd hx (by omega)⟩
    rw [h1, h1]
  · have hx2 : 0x7FF < x := by omega
    by_cases hp : x / 65536 % 256 < 240
    · have h1 := normalize_pdu1_eq x hx2 hp
      have hv1 : 0x7FF < normalize_can_id_for_dbc x := by omega
      have hv2 : normalize_can_id_for_dbc x / 65536 % 256 < 240 := by omega
      have h2 := normalize_pdu1_eq _ hv1 hv2
      have hpx : is_pdu1_format x = true := by
        rw [is_pdu1_format_eq]
        simpa using hp
      refine ⟨by omega, fun hcon => absurd hcon (by omega), fun _ => ?_⟩
      rw [extract_source_address_eq]
      refine ⟨by omega, by omega, fun _ => ⟨by omega, by omega⟩, fun hcon => ?_⟩
      rw [hpx] at hcon
      exact absurd hcon (by simp)
    · have h1 := normalize_pdu2_eq x hx2 hp
      have hv1 : 0x7FF < normalize_can_id_for_dbc x := by omega
      have hv2 : ¬ normalize_can_id_for_dbc x / 65536 % 256 < 240 := by omega
      have h2 := normalize_pdu2_eq _ hv1 hv2
      have hpx : is_pdu1_format x = false := by
        rw [is_pdu1_format_eq]
        simpa using hp
      refine ⟨by omega, fun hcon => absurd hcon (by omega), fun _ => ?_⟩
      rw [extract_source_address_eq]
      refine ⟨by omega, by omega, fun hcon => ?_, fun _ => ⟨by omega, by omega⟩⟩
      rw [hpx] at hcon
      exact absurd hcon (by simp)

/-- Witness for C9 at the standard id `0x500` and at the extended PDU1 id
`0x18EAFF29` and PDU2 id `0x18FEF129`. -/
theorem claim_C9_normalize_idempotent_witness :
    normalize_can_id_for_dbc 0x500 = 0x500
  ∧ normalize_can_id_for_dbc (normalize_can_id_for_dbc 0x18EAFF29)
      = normalize_can_id_for_dbc 0x18EAFF29
  ∧ (0x7FF < 0x18FEF129
    → extract_source_address (normalize_can_id_for_dbc 0x18FEF129) = 0xFE
    ∧ normalize_can_id_for_dbc 0x18FEF129 / 2147483648 % 2 = 1
    ∧ (is_pdu1_format 0x18FEF129 = true →
        normalize_can_id_for_dbc 0x18FEF129 / 256 % 256 = 0xFE
      ∧ normalize_can_id_for_dbc 0x18FEF129 / 65536 % 32768 = 0x18FEF129 / 65536 % 32768)
    ∧ (is_pdu1_format 0x18FEF129 = false →
        normalize_can_id_for_dbc 0x18FEF129 % 256 = 0xFE
      ∧ normalize_can_id_for_dbc 0x18FEF129 / 256 % 8388608 = 0x18FEF129 / 256 % 8388608)) :=
  ⟨(claim_C9_normalize_idempotent 0x500).2.1 (by norm_num),
   (claim_C9_normalize_idempotent 0x18EAFF29).1,
   (claim_C9_normalize_idempotent 0x18FEF129).2.2⟩

end CanProtocol

namespace AvtpAcf

open BitArith

/-- Byte-level normal form of `build_acf_can_brief` for data of at most
64 bytes. -/
theorem build_acf_normal (bus msg : ℕ) (data : List ℕ) (eff fdf brs ts : Bool)
    (hlen : data.length ≤ 64) :
    build_acf_can_brief bus msg data eff fdf brs ts =
      (1024 + (8 + data.length + 3) / 4) / 256 % 256 ::
      (1024 + (8 + data.length + 3) / 4) % 256 ::
      acf_flags eff fdf brs ts ::
      (bus &&& 0x1F) ::
      (msg / 16777216 % 256) :: (msg / 65536 % 256) :: (msg / 256 % 256) :: (msg % 256) ::
      (data ++ List.replicate ((4 - (8 + data.length) % 4) % 4) 0) := by
  simp only [build_acf_can_brief, pad4, pack_u16_be, pack_u32_be]
  rw [List.take_of_length_le hlen]
  have hq : (2 + 1 + 1 + 4 + data.length + 3) / 4 &&& 0x1FF
      = (8 + data.length + 3) / 4 := by
    rw [land511]
    omega
  have h2 : ((0b010 &&& 0x7F) <<< 9 : ℕ) = 1024 := by decide
  rw [hq, h2, lor_disjoint 1024 ((8 + data.length + 3) / 4) 9 (by norm_num) (by omega)]
  simp only [List.cons_append, List.nil_append, List.length_cons, List.length_append,
    List.length_replicate]
  rw [show (4 - (data.length + 1 + 1 + 1 + 1 + 1 + 1 + 1 + 1) % 4) % 4
      = (4 - (8 + data.length) % 4) % 4 from by omega]

/-- C2 (amended): for every bus id, 29-bit CAN id, flag combination and
data of at most 64 bytes, the ACF-CAN Brief block has
`length_quadlets = ceil((8 + |data|) / 4)`, is zero padded to the quadlet
boundary, and `parse_can_brief` returns `bus_id % 32`, the CAN id, the
flags byte and the data zero padded to the quadlet boundary; the
round-trip is exact when `bus_id < 32` and `|data|` is a multiple of 4. -/
theorem claim_C2_acf_brief_roundtrip (bus msg : ℕ) (data : List ℕ)
    (eff fdf brs ts : Bool) (hid : msg < 536870912) (hlen : data.length ≤ 64) :
    acf_length_quadlets (build_acf_can_brief bus msg data eff fdf brs ts)
      = (8 + data.length + 3) / 4
  ∧ (build_acf_can_brief bus msg data eff fdf brs ts).length
      = acf_length_quadlets (build_acf_can_brief bus msg data eff fdf brs ts) * 4
  ∧ parse_can_brief (build_acf_can_brief bus msg data eff fdf brs ts)
      = some (bus % 32, msg, acf_flags eff fdf brs ts,
          data ++ List.replicate ((4 - (8 + data.length) % 4) % 4) 0, 2)
  ∧ (bus < 32 → data.length % 4 = 0 →
      parse_can_brief (build_acf_can_brief bus msg data eff fdf brs ts)
        = some (bus, msg, acf_flags eff fdf brs ts, data, 2)) := by
  rw [build_acf_normal bus msg data eff fdf brs ts hlen]
  have hquad : acf_length_quadlets
      ((1024 + (8 + data.length + 3) / 4) / 256 % 256 ::
        (1024 + (8 + data.length + 3) / 4) % 256 ::
        acf_flags eff fdf brs ts ::
        (bus &&& 0x1F) ::
        (msg / 16777216 % 256) :: (msg / 65536 % 256) :: (msg / 256 % 256) :: (msg % 256) ::
        (data ++ List.replicate ((4 - (8 + data.length) % 4) % 4) 0))
      = (8 + data.length + 3) / 4 := by
    simp only [acf_length_quadlets, List.getD_cons_zero, List.getD_cons_succ]
    rw [land511]
    omega
  refine ⟨hquad, ?_, ?_, ?_⟩
  · rw [hquad]
    simp only [List.length_cons, List.length_append, List.length_replicate]
    omega
  · simp only [parse_can_brief, List.length_cons, List.length_append, List.length_replicate,
      List.getD_cons_zero, List.getD_cons_succ]
    rw [if_neg (by omega)]
    have hmsgty : ((1024 + (8 + data.length + 3) / 4) / 256 % 256 * 256
        + (1024 + (8 + data.length + 3) / 4) % 256) >>> 9 &&& 0x7F = 2 := by
      rw [shr_eq, land127]
      omega
    have hbus : bus &&& 0x1F &&& 0x1F = bus % 32 := by
      rw [land31, land31]
      omega
    have hcan : (msg / 16777216 % 256 &&& 0x1F) <<< 24 ||| (msg / 65536 % 256) <<< 16 |||
        (msg / 256 % 256) <<< 8 ||| msg % 256 = msg := by
      rw [land31, shl_eq, shl_eq, shl_eq]
      norm_num
      rw [lor_disjoint (msg / 16777216 % 32 * 16777216) (msg / 65536 % 256 * 65536)
        24 (by omega) (by omega)]
      rw [lor_disjoint (msg / 16777216 % 32 * 16777216 + msg / 65536 % 256 * 65536)
        (msg / 256 % 256 * 256) 16 (by omega) (by omega)]
      rw [lor_disjoint (msg / 16777216 % 32 * 16777216 + msg / 65536 % 256 * 65536
        + msg / 256 % 256 * 256) (msg % 256) 8 (by omega) (by omega)]
      omega
    rw [hmsgty, hbus, hcan]
    simp [List.drop]
  · intro hb hmod4
    have hcount : (4 - (8 + data.length) % 4) % 4 = 0 := by omega
    simp only [parse_can_brief, List.length_cons, List.length_append, List.length_replicate,
      List.getD_cons_zero, List.getD_cons_succ, hcount, List.replicate_zero, List.append_nil]
    rw [if_neg (by omega)]
    have hmsgty : ((1024 + (8 + data.length + 3) / 4) / 256 % 256 * 256
        + (1024 + (8 + data.length + 3) / 4) % 256) >>> 9 &&& 0x7F = 2 := by
      rw [shr_eq, land127]
      omega
    have hbus : bus &&& 0x1F &&& 0x1F = bus := by
      rw [land31, land31]
      omega
    have hcan : (msg / 16777216 % 256 &&& 0x1F) <<< 24 ||| (msg / 65536 % 256) <<< 16 |||
        (msg / 256 % 256) <<< 8 ||| msg % 256 = msg := by
      rw [land31, shl_eq, shl_eq, shl_eq]
      norm_num
      rw [lor_disjoint (msg / 16777216 % 32 * 16777216) (msg / 65536 % 256 * 65536)
        24 (by omega) (by omega)]
      rw [lor_disjoint (msg / 16777216 % 32 * 16777216 + msg / 65536 % 256 * 65536)
        (msg / 256 % 256 * 256) 16 (by omega) (by omega)]
      rw [lor_disjoint (msg / 16777216 % 32 * 16777216 + msg / 65536 % 256 * 65536
        + msg / 256 % 256 * 256) (msg % 256) 8 (by omega) (by omega)]
      omega
    rw [hmsgty, hbus, hcan]
    simp [List.drop]

/-- C2 counterexample: at `bus_id = 32` with one data byte, the parsed
block does not return the original bus id (32 is masked to 0) nor the
original data (the zero padding is returned as part of the data). -/
theorem claim_C2_counterexample :
    parse_can_brief (build_acf_can_brief 32 5 [1] true false false false)
      = some (0, 5, 8, [1, 0, 0, 0], 2)
  ∧ ¬ parse_can_brief (build_acf_can_brief 32 5 [1] true false false false)
      = some (32, 5, 8, [1], 2) :=
  ⟨by decide, by decide⟩

/-- Witness for C2 at `bus_id = 3`, the 29-bit id `0x0CF00400` and four
data bytes. -/
theorem claim_C2_acf_brief_roundtrip_witness :
    (0x0CF00400 : ℕ) < 536870912 ∧ ([1, 2, 3, 4] : List ℕ).length ≤ 64
  ∧ parse_can_brief (build_acf_can_brief 3 0x0CF00400 [1, 2, 3, 4] true false false false)
      = some (3, 0x0CF00400, 8, [1, 2, 3, 4], 2) :=
  ⟨by norm_num, by decide,
   (claim_C2_acf_brief_roundtrip 3 0x0CF00400 [1, 2, 3, 4] true false false false
      (by norm_num) (by decide)).2.2.2 (by norm_num) (by decide)⟩

end AvtpAcf

namespace Uio

/-- C7: `set_voltage(p, 0.0)` and `set_voltage(p, 24.0)` both succeed,
while any out-of-range voltage raises before any shadow mutation, leaving
the device shadow (voltages, op modes, switch vectors) unchanged and
sending nothing. -/
theorem claim_C7_set_voltage_range (s : UioState) (p : Fin 8) (ok : Bool) :
    (set_voltage s p 0 ok).raised = false
  ∧ (set_voltage s p 24 ok).raised = false
  ∧ ∀ v : ℚ, (v < 0 ∨ 24 < v) → set_voltage s p v ok = ⟨true, s, []⟩ := by
  refine ⟨?_, ?_, ?_⟩
  · unfold set_voltage
    rw [if_neg (not_not_intro ⟨by norm_num, by norm_num⟩)]
    dsimp only
    split <;> rfl
  · unfold set_voltage
    rw [if_neg (not_not_intro ⟨by norm_num, by norm_num⟩)]
    dsimp only
    split <;> rfl
  · intro v hv
    have hcond : ¬ (0 ≤ v ∧ v ≤ 24) := by
      intro hcon
      rcases hv with h | h
      · linarith [hcon.1]
      · linarith [hcon.2]
    unfold set_voltage
    rw [if_pos hcond]

/-- Witness for C7 on the fresh UIO shadow, pin 0, with `v = -1` as the
out-of-range input. -/
theorem claim_C7_set_voltage_range_witness :
    (set_voltage uio_init 0 0 true).raised = false
  ∧ (set_voltage uio_init 0 24 true).raised = false
  ∧ set_voltage uio_init 0 (-1) true = ⟨true, uio_init, []⟩ :=
  ⟨(claim_C7_set_voltage_range uio_init 0 true).1,
   (claim_C7_set_voltage_range uio_init 0 true).2.1,
   (claim_C7_set_voltage_range uio_init 0 true).2.2 (-1) (Or.inl (by norm_num))⟩

end Uio

namespace Uio

/-- Evaluation of `Pin.set_voltage` on an in-range voltage. -/
theorem set_voltage_eval (s : UioState) (p : Fin 8) (v : ℚ) (ok : Bool)
    (h0 : 0 ≤ v) (h24 : v ≤ 24) :
    set_voltage s p v ok =
      if s.voltages_out.set p.val v ≠ s.voltages_out_last then
        ⟨false, (send_voltage_out_req (set_voltage_mid s p v) ok).1,
                (send_voltage_out_req (set_voltage_mid s p v) ok).2⟩
      else ⟨false, set_voltage_mid s p v, []⟩ := by
  unfold set_voltage
  rw [if_neg (not_not_intro ⟨h0, h24⟩)]
  rfl

/-- C5: an in-range `set_voltage` whose updated shadow differs from the
last-sent mirror triggers exactly one immediate `VOLTAGE_OUT` send and
commits the mirror; the identical second call sends nothing; on an
encode/send failure nothing is sent and the mirror is not touched. -/
theorem claim_C5_change_detection (s : UioState) (p : Fin 8) (v : ℚ)
    (h0 : 0 ≤ v) (h24 : v ≤ 24) :
    (s.voltages_out.set p.val v ≠ s.voltages_out_last →
        (set_voltage s p v true).sent
          = [UioMsg.voltage_out_req (s.voltages_out.set p.val v)]
      ∧ (set_voltage s p v true).state.voltages_out_last
          = s.voltages_out.set p.val v
      ∧ (set_voltage (set_voltage s p v true).state p v true).sent = [])
  ∧ ((set_voltage s p v false).state.voltages_out_last = s.voltages_out_last
      ∧ (set_voltage s p v false).sent = [])
  ∧ (∀ ok2 : Bool, s.voltages_out.set p.val v = s.voltages_out_last →
      (set_voltage s p v ok2).sent = []) := by
  refine ⟨?_, ?_, ?_⟩
  · intro hch
    rw [set_voltage_eval s p v true h0 h24, if_pos hch]
    refine ⟨rfl, rfl, ?_⟩
    rw [set_voltage_eval _ p v true h0 h24]
    simp [send_voltage_out_req, set_voltage_mid, disable_all_features, disable_feature,
      set_op_mode, List.set_set]
  · rw [set_voltage_eval s p v false h0 h24]
    by_cases hch : s.voltages_out.set p.val v ≠ s.voltages_out_last
    · rw [if_pos hch]
      exact ⟨rfl, rfl⟩
    · rw [if_neg hch]
      exact ⟨rfl, rfl⟩
  · intro ok2 heq
    rw [set_voltage_eval s p v ok2 h0 h24, if_neg (not_not_intro heq)]

/-- Witness for C5 on the fresh UIO shadow, pin 0, voltage 12. -/
theorem claim_C5_change_detection_witness :
    (0 : ℚ) ≤ 12 ∧ (12 : ℚ) ≤ 24
  ∧ ((uio_init.voltages_out.set (0 : Fin 8).val 12 ≠ uio_init.voltages_out_last →
        (set_voltage uio_init 0 12 true).sent
          = [UioMsg.voltage_out_req (uio_init.voltages_out.set (0 : Fin 8).val 12)]
      ∧ (set_voltage uio_init 0 12 true).state.voltages_out_last
          = uio_init.voltages_out.set (0 : Fin 8).val 12
      ∧ (set_voltage (set_voltage uio_init 0 12 true).state 0 12 true).sent = [])
    ∧ ((set_voltage uio_init 0 12 false).state.voltages_out_last
          = uio_init.voltages_out_last
      ∧ (set_voltage uio_init 0 12 false).sent = [])
    ∧ (∀ ok2 : Bool, uio_init.voltages_out.set (0 : Fin 8).val 12 = uio_init.voltages_out_last →
        (set_voltage uio_init 0 12 ok2).sent = [])) :=
  ⟨by norm_num, by norm_num,
   claim_C5_change_detection uio_init 0 12 (by norm_num) (by norm_num)⟩

end Uio

namespace Uio

/-- C3 counterexample: on a fresh UIO device, `set_voltage(0, 12.0)` sends
exactly one immediate message — the value phase (`VOLTAGE_OUT`) — and not
a three-message mode → routing → value sequence. -/
theorem claim_C3_counterexample :
    (set_voltage uio_init 0 12 true).sent
      = [UioMsg.voltage_out_req [12, 0, 0, 0, 0, 0, 0, 0]]
  ∧ ¬ (set_voltage uio_init 0 12 true).sent.length = 3 :=
  ⟨by decide, by decide⟩

/-- C3 (amended): a `set_voltage` that passes change detection mutates the
mode and routing shadow but immediately emits only the value message (one
message describing all eight pins); the mode (`OP_MODE`) and routing
(`SWITCH_OUTPUT`) messages are emitted by the periodic `all_parameters`
task, which sends one message per phase for all eight pins in the fixed
order `OP_MODE`, `VOLTAGE_OUT`, `CURRENT_OUT`, `PWM_OUT`,
`SWITCH_OUTPUT`. -/
theorem claim_C3_send_phases (s : UioState) (p : Fin 8) (v : ℚ)
    (h0 : 0 ≤ v) (h24 : v ≤ 24)
    (hch : s.voltages_out.set p.val v ≠ s.voltages_out_last) :
    (set_voltage s p v true).sent
      = [UioMsg.voltage_out_req (s.voltages_out.set p.val v)]
  ∧ (set_voltage s p v true).state.op_modes p .SET_VOLTAGE
      = some Enums.FeatureState.OPERATE
  ∧ (set_voltage s p v true).state.switch_vlt_o
      = ((disable_all_features s p).switch_vlt_o).set p.val true
  ∧ (send_all_parameters s true true true true true).2 =
      [UioMsg.op_mode_req, UioMsg.voltage_out_req s.voltages_out,
       UioMsg.current_out_req s.currents_out, UioMsg.pwm_out_req s.pwm_out,
       UioMsg.switch_output_req s.switch_icu s.switch_pwm s.switch_vlt_o
         s.switch_cur_o s.switch_cur_i] := by
  rw [set_voltage_eval s p v true h0 h24, if_pos hch]
  refine ⟨rfl, ?_, rfl, rfl⟩
  show (set_voltage_mid s p v).op_modes p .SET_VOLTAGE = some Enums.FeatureState.OPERATE
  simp [set_voltage_mid, set_op_mode]

/-- Witness for C3 on the fresh UIO shadow, pin 0, voltage 12. -/
theorem claim_C3_send_phases_witness :
    (0 : ℚ) ≤ 12 ∧ (12 : ℚ) ≤ 24
  ∧ uio_init.voltages_out.set (0 : Fin 8).val 12 ≠ uio_init.voltages_out_last
  ∧ (set_voltage uio_init 0 12 true).sent
      = [UioMsg.voltage_out_req (uio_init.voltages_out.set (0 : Fin 8).val 12)]
  ∧ (send_all_parameters uio_init true true true true true).2 =
      [UioMsg.op_mode_req, UioMsg.voltage_out_req uio_init.voltages_out,
       UioMsg.current_out_req uio_init.currents_out, UioMsg.pwm_out_req uio_init.pwm_out,
       UioMsg.switch_output_req uio_init.switch_icu uio_init.switch_pwm
         uio_init.switch_vlt_o uio_init.switch_cur_o uio_init.switch_cur_i] :=
  ⟨by norm_num, by norm_num, by decide,
   (claim_C3_send_phases uio_init 0 12 (by norm_num) (by norm_num) (by decide)).1,
   (claim_C3_send_phases uio_init 0 12 (by norm_num) (by norm_num) (by decide)).2.2.2⟩

end Uio

/-- `int(4.0 * 1e6) = 4000000`. -/
theorem add_task_sec_us_4 : Uio.add_task_sec_us 4.0 = 4000000 := by
  norm_num [Uio.add_task_sec_us]
  rfl

/-- `int(9.0 * 1e6) = 9000000`. -/
theorem add_task_sec_us_9 : Uio.add_task_sec_us 9.0 = 9000000 := by
  norm_num [Uio.add_task_sec_us]
  rfl

/-- `int(0.1 * 1e6) = 100000`. -/
theorem add_task_sec_us_01 : Uio.add_task_sec_us 0.1 = 100000 := by
  norm_num [Uio.add_task_sec_us]
  rfl

/-- C4 counterexample: the UIO periodic task table registers the
`module_info` heartbeat at 4 s (not 9 s) and the parameter snapshot at
0.1 s (not 3 s). -/
theorem claim_C4_counterexample :
    Uio.setup_periodic_tasks_uio.lookup "module_info" = some 4000000
  ∧ ¬ Uio.setup_periodic_tasks_uio.lookup "module_info" = some 9000000
  ∧ Uio.setup_periodic_tasks_uio.lookup "all_parameters" = some 100000
  ∧ ¬ Uio.setup_periodic_tasks_uio.lookup "all_parameters" = some 3000000 := by
  refine ⟨?_, ?_, ?_, ?_⟩ <;>
    simp [Uio.setup_periodic_tasks_uio, List.lookup, add_task_sec_us_4, add_task_sec_us_01]

/-- C4 (amended): the UIO device registers the `MODULE_INFO` heartbeat
request with a 4-second period and the combined parameter snapshot with a
0.1-second period; the ELoad device registers them at 9 seconds and 0.1
seconds.  Over a 30 s quiet window this yields 7 (UIO) resp. 3 (ELoad)
heartbeat emissions and 300 snapshot emissions.  Each UIO snapshot is one
`OP_MODE`, one `VOLTAGE_OUT`, one `CURRENT_OUT`, one `PWM_OUT` and one
`SWITCH_OUTPUT` message; each ELoad snapshot is one `OP_MODE`, one
`VOLTAGE_OUT` and one `CURRENT_OUT` message. -/
theorem claim_C4_periodic_cadences :
    Uio.setup_periodic_tasks_uio = [("module_info", 4000000), ("all_parameters", 100000)]
  ∧ ELoad.setup_periodic_tasks_eload
      = [("module_info", 9000000), ("all_parameters", 100000)]
  ∧ (30000000 : ℕ) / 4000000 = 7
  ∧ (30000000 : ℕ) / 9000000 = 3
  ∧ (30000000 : ℕ) / 100000 = 300
  ∧ (∀ s : Uio.UioState, (Uio.send_all_parameters s true true true true true).2 =
      [Uio.UioMsg.op_mode_req, Uio.UioMsg.voltage_out_req s.voltages_out,
       Uio.UioMsg.current_out_req s.currents_out, Uio.UioMsg.pwm_out_req s.pwm_out,
       Uio.UioMsg.switch_output_req s.switch_icu s.switch_pwm s.switch_vlt_o
         s.switch_cur_o s.switch_cur_i])
  ∧ (∀ t : ELoad.ELoadState, (ELoad.send_all_parameters_eload t true true true).2 =
      [ELoad.ELoadMsg.op_mode_req, ELoad.ELoadMsg.voltage_out_req t.voltages_out,
       ELoad.ELoadMsg.current_out_req t.currents_out]) :=
  ⟨by simp [Uio.setup_periodic_tasks_uio, add_task_sec_us_4, add_task_sec_us_01],
   by simp [ELoad.setup_periodic_tasks_eload, add_task_sec_us_9, add_task_sec_us_01],
   by norm_num, by norm_num, by norm_num,
   fun s => rfl, fun t => rfl⟩

namespace ELoad

open Enums

/-- Out-of-range `set_current` raises and leaves the state unchanged. -/
theorem set_current_oor (s : ELoadState) (c : Fin 8) (i : ℚ) (ok : Bool)
    (h : ¬ (0 ≤ i ∧ i ≤ 10)) : set_current s c i ok = ⟨true, s, []⟩ := by
  unfold set_current
  rw [if_pos h]

/-- Out-of-range `set_voltage` raises and leaves the state unchanged. -/
theorem eload_set_voltage_oor (s : ELoadState) (c : Fin 8) (v : ℚ) (ok : Bool)
    (h : ¬ (0 ≤ v ∧ v ≤ 24)) : set_voltage s c v ok = ⟨true, s, []⟩ := by
  unfold set_voltage
  rw [if_pos h]

/-- Op modes after an in-range `set_current`. -/
theorem set_current_op_modes_eval (s : ELoadState) (c : Fin 8) (i : ℚ) (ok : Bool)
    (h : 0 ≤ i ∧ i ≤ 10) (q : Fin 8) (g : Feature) :
    (set_current s c i ok).state.op_modes q g =
      if q = c ∧ g = .GET_VOLTAGE then some .OPERATE
      else if q = c ∧ g = .SET_VOLTAGE then some .DISABLED
      else if q = c ∧ g = .GET_CURRENT then some .OPERATE
      else if q = c ∧ g = .SET_CURRENT then some .OPERATE
      else s.op_modes q g := by
  unfold set_current
  rw [if_neg (not_not_intro h)]
  dsimp only
  split
  · unfold send_current_out_req
    split <;> rfl
  · rfl

/-- Op modes after an in-range `set_voltage`. -/
theorem set_voltage_op_modes_eval (s : ELoadState) (c : Fin 8) (v : ℚ) (ok : Bool)
    (h : 0 ≤ v ∧ v ≤ 24) (q : Fin 8) (g : Feature) :
    (set_voltage s c v ok).state.op_modes q g =
      if q = c ∧ g = .GET_CURRENT then some .DISABLED
      else if q = c ∧ g = .SET_CURRENT then some .DISABLED
      else if q = c ∧ g = .GET_VOLTAGE then some .OPERATE
      else if q = c ∧ g = .SET_VOLTAGE then some .OPERATE
      else s.op_modes q g := by
  unfold set_voltage
  rw [if_neg (not_not_intro h)]
  dsimp only
  split
  · unfold send_voltage_out_req
    split <;> rfl
  · rfl

/-- `set_relay` does not touch the op modes. -/
theorem set_relay_op_modes (s : ELoadState) (r : Fin 4) (b : Bool) (ok : Bool) :
    (set_relay s r b ok).state.op_modes = s.op_modes := by
  unfold set_relay send_switch_relay_req
  rfl

/-- Every single operation preserves the mode invariant. -/
theorem mutex_preserved (s : ELoadState) (op : EOp) (c : Fin 8) (h : mutex s c) :
    mutex (run_op s op) c := by
  cases op with
  | setCurrent c' i ok =>
      by_cases hr : 0 ≤ i ∧ i ≤ 10
      · intro hcon
        obtain ⟨h1, h2⟩ := hcon
        rw [show run_op s (EOp.setCurrent c' i ok) = (set_current s c' i ok).state from rfl]
          at h1 h2
        rw [set_current_op_modes_eval s c' i ok hr c .SET_VOLTAGE] at h1
        rw [set_current_op_modes_eval s c' i ok hr c .SET_CURRENT] at h2
        by_cases hc : c = c'
        · simp [hc] at h1
        · simp [hc] at h1 h2
          exact h ⟨h1, h2⟩
      · show mutex (set_current s c' i ok).state c
        rw [set_current_oor s c' i ok hr]
        exact h
  | setVoltage c' v ok =>
      by_cases hr : 0 ≤ v ∧ v ≤ 24
      · intro hcon
        obtain ⟨h1, h2⟩ := hcon
        rw [show run_op s (EOp.setVoltage c' v ok) = (set_voltage s c' v ok).state from rfl]
          at h1 h2
        rw [set_voltage_op_modes_eval s c' v ok hr c .SET_VOLTAGE] at h1
        rw [set_voltage_op_modes_eval s c' v ok hr c .SET_CURRENT] at h2
        by_cases hc : c = c'
        · simp [hc] at h2
        · simp [hc] at h1 h2
          exact h ⟨h1, h2⟩
      · show mutex (set_voltage s c' v ok).state c
        rw [eload_set_voltage_oor s c' v ok hr]
        exact h
  | setRelay r b ok =>
      intro hcon
      rw [show run_op s (EOp.setRelay r b ok) = (set_relay s r b ok).state from rfl,
        set_relay_op_modes] at hcon
      exact h hcon

/-- The mode invariant holds along every operation sequence. -/
theorem mutex_foldl : ∀ (ops : List EOp) (s : ELoadState),
    (∀ c, mutex s c) → ∀ c, mutex (ops.foldl run_op s) c
  | [], _, h, c => h c
  | op :: rest, s, h, c =>
      mutex_foldl rest _ (fun c' => mutex_preserved s op c' (h c')) c

/-- The fresh ELoad shadow satisfies the mode invariant. -/
theorem mutex_init (c : Fin 8) : mutex eload_init c := by
  intro hcon
  simp [eload_init] at hcon

/-- The output-value lists after an in-range `set_current`. -/
theorem set_current_state_lists (s : ELoadState) (c : Fin 8) (i : ℚ) (ok : Bool)
    (h : 0 ≤ i ∧ i ≤ 10) :
    (set_current s c i ok).state.voltages_out = s.voltages_out.set c.val 0
  ∧ (set_current s c i ok).state.currents_out = s.currents_out.set c.val i := by
  unfold set_current
  rw [if_neg (not_not_intro h)]
  dsimp only
  constructor
  · split
    · unfold send_current_out_req
      split <;> rfl
    · rfl
  · split
    · unfold send_current_out_req
      split <;> rfl
    · rfl

/-- The output-value lists after an in-range `set_voltage`. -/
theorem set_voltage_state_lists (s : ELoadState) (c : Fin 8) (v : ℚ) (ok : Bool)
    (h : 0 ≤ v ∧ v ≤ 24) :
    (set_voltage s c v ok).state.voltages_out = s.voltages_out.set c.val v
  ∧ (set_voltage s c v ok).state.currents_out = s.currents_out.set c.val 0 := by
  unfold set_voltage
  rw [if_neg (not_not_intro h)]
  dsimp only
  constructor
  · split
    · unfold send_voltage_out_req
      split <;> rfl
    · rfl
  · split
    · unfold send_voltage_out_req
      split <;> rfl
    · rfl

end ELoad

/-- C6: on every ELoad shadow reachable through the channel setters and
relay setter, at most one of `SetVoltage` and `SetCurrent` is in `Operate`
per channel; and `set_current(c, i)` followed by `set_voltage(c, v)`
leaves `voltages_out[c] = v`, `currents_out[c] = 0.0`, and the
`SetCurrent` op mode `Disabled`. -/
theorem claim_C6_eload_mode_invariant :
    (∀ (ops : List ELoad.EOp) (c : Fin 8),
      ¬ ((ELoad.run_ops ops).op_modes c .SET_VOLTAGE = some .OPERATE
        ∧ (ELoad.run_ops ops).op_modes c .SET_CURRENT = some .OPERATE))
  ∧ (∀ (s : ELoad.ELoadState) (c : Fin 8) (i v : ℚ) (ok1 ok2 : Bool),
      0 ≤ i → i ≤ 10 → 0 ≤ v → v ≤ 24 →
      s.voltages_out.length = 8 → s.currents_out.length = 8 →
        (ELoad.set_voltage (ELoad.set_current s c i ok1).state c v ok2).state.voltages_out.getD
            c.val 0 = v
      ∧ (ELoad.set_voltage (ELoad.set_current s c i ok1).state c v ok2).state.currents_out.getD
            c.val 0 = 0
      ∧ (ELoad.set_voltage (ELoad.set_current s c i ok1).state c v ok2).state.op_modes
            c .SET_CURRENT = some .DISABLED) := by
  constructor
  · intro ops c
    exact ELoad.mutex_foldl ops ELoad.eload_init (fun c' => ELoad.mutex_init c') c
  · intro s c i v ok1 ok2 hi0 hi10 hv0 hv24 hlv hlc
    have hi : 0 ≤ i ∧ i ≤ 10 := ⟨hi0, hi10⟩
    have hv : 0 ≤ v ∧ v ≤ 24 := ⟨hv0, hv24⟩
    have h1 := ELoad.set_current_state_lists s c i ok1 hi
    have h2 := ELoad.set_voltage_state_lists (ELoad.set_current s c i ok1).state c v ok2 hv
    have hc8 : c.val < 8 := c.isLt
    refine ⟨?_, ?_, ?_⟩
    · rw [h2.1, h1.1]
      simp [List.getD_eq_getElem?_getD, List.getElem?_set, hlv, hc8]
    · rw [h2.2, h1.2]
      simp [List.getD_eq_getElem?_getD, List.getElem?_set, hlc, hc8]
    · rw [ELoad.set_voltage_op_modes_eval (ELoad.set_current s c i ok1).state c v ok2 hv
        c .SET_CURRENT]
      simp

/-- Witness for C6: the concrete sequence `set_current(0, 5)` then
`set_voltage(0, 12)` on the fresh ELoad shadow, and the invariant on the
state it reaches. -/
theorem claim_C6_eload_mode_invariant_witness :
    (¬ ((ELoad.run_ops [ELoad.EOp.setCurrent 0 5 true, ELoad.EOp.setVoltage 0 12 true]).op_modes
          0 .SET_VOLTAGE = some .OPERATE
      ∧ (ELoad.run_ops [ELoad.EOp.setCurrent 0 5 true, ELoad.EOp.setVoltage 0 12 true]).op_modes
          0 .SET_CURRENT = some .OPERATE))
  ∧ ((ELoad.set_voltage (ELoad.set_current ELoad.eload_init 0 5 true).state 0 12
        true).state.voltages_out.getD (0 : Fin 8).val 0 = 12
    ∧ (ELoad.set_voltage (ELoad.set_current ELoad.eload_init 0 5 true).state 0 12
        true).state.currents_out.getD (0 : Fin 8).val 0 = 0
    ∧ (ELoad.set_voltage (ELoad.set_current ELoad.eload_init 0 5 true).state 0 12
        true).state.op_modes 0 .SET_CURRENT = some .DISABLED) :=
  ⟨claim_C6_eload_mode_invariant.1
      [ELoad.EOp.setCurrent 0 5 true, ELoad.EOp.setVoltage 0 12 true] 0,
   claim_C6_eload_mode_invariant.2 ELoad.eload_init 0 5 12 true true
      (by norm_num) (by norm_num) (by norm_num) (by norm_num) (by decide) (by decide)⟩

namespace TaskMonitor

/-- A disabled task is not collected by the scheduler scan. -/
theorem tick_disabled (t : Task) (now : ℚ) (cb : Bool) (h : t.enabled = false) :
    tick t now cb = (t, [(true, SchedAction.scan)]) := by
  unfold tick
  rw [if_neg (by simp [h])]

/-- A disabled task stays disabled and untouched over any tick sequence. -/
theorem ticksFail_disabled (times : List ℚ) (t : Task) (h : t.enabled = false) :
    ticksFail t times = t := by
  induction times generalizing t with
  | nil => rfl
  | cons now rest ih =>
      rw [show ticksFail t (now :: rest) = ticksFail (tick t now false).1 rest from rfl,
        tick_disabled t now false h]
      exact ih t h

/-- A task that is due and fails on every tick is disabled once its
consecutive error count reaches 10. -/
theorem ticksFail_disables : ∀ (times : List ℚ) (t : Task),
    allDueB t times = true → t.enabled = true → t.error_count < 10 →
    10 ≤ t.error_count + times.length → (ticksFail t times).enabled = false := by
  intro times
  induction times with
  | nil =>
      intro t _ _ hlt hge
      simp at hge
      omega
  | cons now rest ih =>
      intro t hdue hen hlt hge
      have hdu := hdue
      unfold allDueB at hdu
      rw [Bool.and_eq_true] at hdu
      have hdue1 : (t.period_us : ℚ) / 1000000 ≤ now - t.last_run :=
        of_decide_eq_true hdu.1
      have htick : (tick t now false).1 =
          (if 10 ≤ t.error_count + 1 then
            { t with last_run := now, error_count := t.error_count + 1, enabled := false }
          else { t with last_run := now, error_count := t.error_count + 1 }) := by
        unfold tick
        rw [if_pos ⟨hen, hdue1⟩, if_neg (by simp)]
      rw [show ticksFail t (now :: rest) = ticksFail (tick t now false).1 rest from rfl]
      by_cases hcase : 10 ≤ t.error_count + 1
      · have hdis : (tick t now false).1.enabled = false := by
          rw [htick, if_pos hcase]
        rw [ticksFail_disabled rest _ hdis]
        exact hdis
      · have herr : (tick t now false).1.error_count = t.error_count + 1 := by
          rw [htick, if_neg hcase]
        have hena : (tick t now false).1.enabled = true := by
          rw [htick, if_neg hcase]
          exact hen
        refine ih _ hdu.2 hena (by omega) ?_
        simp at hge
        omega

/-- A successful callback run resets the consecutive error count. -/
theorem tick_success_resets (t : Task) (now : ℚ) (hen : t.enabled = true)
    (hdue : (t.period_us : ℚ) / 1000000 ≤ now - t.last_run) :
    (tick t now true).1.error_count = 0 := by
  unfold tick
  rw [if_pos ⟨hen, hdue⟩]
  rfl

/-- The callback is only ever invoked with the registry lock released. -/
theorem tick_invoke_unlocked (t : Task) (now : ℚ) (cb : Bool) :
    ∀ e ∈ (tick t now cb).2, e.2 = SchedAction.invoke → e.1 = false := by
  unfold tick
  split
  · dsimp only
    split <;> (intro e he hinv; fin_cases he <;> simp_all)
  · intro e he hinv
    fin_cases he
    simp_all

end TaskMonitor

/-- C8: a freshly registered periodic task whose callback raises on every
invocation has its `enabled` flag cleared within 10 ticks in which it is
due; any successful run resets the consecutive error count to zero; and
every callback invocation happens outside the task-table lock. -/
theorem claim_C8_auto_disable :
    (∀ (nm : String) (per : ℕ) (t0 : ℚ) (times : List ℚ),
      times.length = 10 →
      TaskMonitor.allDueB (TaskMonitor.add_task nm per t0) times = true →
      (TaskMonitor.ticksFail (TaskMonitor.add_task nm per t0) times).enabled = false)
  ∧ (∀ (t : TaskMonitor.Task) (now : ℚ), t.enabled = true →
      (t.period_us : ℚ) / 1000000 ≤ now - t.last_run →
      (TaskMonitor.tick t now true).1.error_count = 0)
  ∧ (∀ (t : TaskMonitor.Task) (now : ℚ) (cb : Bool) (e : Bool × TaskMonitor.SchedAction),
      e ∈ (TaskMonitor.tick t now cb).2 → e.2 = TaskMonitor.SchedAction.invoke →
      e.1 = false) := by
  refine ⟨?_, ?_, ?_⟩
  · intro nm per t0 times hlen hdue
    exact TaskMonitor.ticksFail_disables times (TaskMonitor.add_task nm per t0) hdue rfl
      (by simp [TaskMonitor.add_task]) (by simp [TaskMonitor.add_task, hlen])
  · intro t now hen hdue
    exact TaskMonitor.tick_success_resets t now hen hdue
  · intro t now cb e he hinv
    exact TaskMonitor.tick_invoke_unlocked t now cb e he hinv

/-- Witness for C8: a 1 s task registered at time 0 whose callback always
raises, ticked at seconds 1..10. -/
theorem claim_C8_auto_disable_witness :
    ([1, 2, 3, 4, 5, 6, 7, 8, 9, 10] : List ℚ).length = 10
  ∧ TaskMonitor.allDueB (TaskMonitor.add_task "module_info" 1000000 0)
      [1, 2, 3, 4, 5, 6, 7, 8, 9, 10] = true
  ∧ (TaskMonitor.ticksFail (TaskMonitor.add_task "module_info" 1000000 0)
      [1, 2, 3, 4, 5, 6, 7, 8, 9, 10]).enabled = false := by
  have hdue : TaskMonitor.allDueB (TaskMonitor.add_task "module_info" 1000000 0)
      [1, 2, 3, 4, 5, 6, 7, 8, 9, 10] = true := by
    norm_num [TaskMonitor.allDueB, TaskMonitor.tick, TaskMonitor.add_task]
  exact ⟨by decide, hdue,
    claim_C8_auto_disable.1 "module_info" 1000000 0 _ (by decide) hdue⟩

namespace Sdk

/-- Appending a fresh binding makes it visible to `lookup`. -/
theorem lookup_append_self (l : List (String × Device)) (k : String) (d : Device)
    (h : l.lookup k = none) : (l ++ [(k, d)]).lookup k = some d := by
  induction l with
  | nil => simp [List.lookup]
  | cons a t ih =>
      rw [List.cons_append]
      cases hk : k == a.1 with
      | true =>
          exfalso
          rw [show (a :: t).lookup k = some a.2 from by
            cases a
            simp [List.lookup, hk]] at h
          exact Option.noConfusion h
      | false =>
          have ht : t.lookup k = none := by
            cases a
            simpa [List.lookup, hk] using h
          cases a
          simpa [List.lookup, hk] using ih ht

/-- After any `connect_uio`, the map contains the returned device under
the upper-cased MAC. -/
theorem connect_uio_lookup (s : SdkState) (mac : String) :
    ((connect_uio s mac).1.connected_devices).lookup mac.toUpper
      = some (connect_uio s mac).2 := by
  unfold connect_uio
  cases hl : s.connected_devices.lookup mac.toUpper with
  | some d => simp [hl]
  | none =>
      simp only [hl]
      exact lookup_append_self _ _ _ hl

end Sdk

/-- C10: the three `connect_*` methods share one connected-device map
keyed only by the upper-cased MAC string, with no device-type check: once
`connect_uio(mac)` has run, a second `connect_uio`, a `connect_eload` or a
`connect_ifmux` on the same MAC all return the previously created device
object (a `DeviceUIO` when the MAC was fresh) and leave the facade state
unchanged. -/
theorem claim_C10_connect_shared_map (s : Sdk.SdkState) (mac : String) (lin : Bool) :
    Sdk.connect_uio (Sdk.connect_uio s mac).1 mac = Sdk.connect_uio s mac
  ∧ Sdk.connect_eload (Sdk.connect_uio s mac).1 mac = Sdk.connect_uio s mac
  ∧ Sdk.connect_ifmux (Sdk.connect_uio s mac).1 mac lin = Sdk.connect_uio s mac
  ∧ (s.connected_devices.lookup mac.toUpper = none →
      (Sdk.connect_uio s mac).2 = Sdk.Device.uio mac.toUpper s.next_uid) := by
  have hl := Sdk.connect_uio_lookup s mac
  set r := Sdk.connect_uio s mac with hr
  refine ⟨?_, ?_, ?_, ?_⟩
  · show Sdk.connect_uio r.1 mac = r
    unfold Sdk.connect_uio
    dsimp only
    rw [hl]
  · show Sdk.connect_eload r.1 mac = r
    unfold Sdk.connect_eload
    dsimp only
    rw [hl]
  · show Sdk.connect_ifmux r.1 mac lin = r
    unfold Sdk.connect_ifmux
    dsimp only
    rw [hl]
  · intro h0
    rw [hr]
    unfold Sdk.connect_uio
    dsimp only
    rw [h0]

/-- Witness for C10: an empty facade and the MAC `"aa:bb"`, whose lookup
in the empty map is `none`. -/
theorem claim_C10_connect_shared_map_witness :
    (Sdk.connect_eload (Sdk.connect_uio ⟨[], 0⟩ "aa:bb").1 "aa:bb"
        = Sdk.connect_uio ⟨[], 0⟩ "aa:bb")
  ∧ (([] : List (String × Sdk.Device)).lookup "aa:bb".toUpper = none →
      (Sdk.connect_uio ⟨[], 0⟩ "aa:bb").2 = Sdk.Device.uio "aa:bb".toUpper 0) :=
  ⟨(claim_C10_connect_shared_map ⟨[], 0⟩ "aa:bb" false).2.1,
   (claim_C10_connect_shared_map ⟨[], 0⟩ "aa:bb" false).2.2.2⟩
